import Mathlib

/-!
Shallow embedding of `src/jvpm/class_file.py`, a Java class-file decoder.

Bytes are modelled as `List Nat` (each element one byte value), the module-level
cursor state `self` as the structure `St`, and Python exceptions as `PyErr`.
Python slice semantics (`data[a : a + n]` silently clamps to the end of the
buffer) are modelled by `pySlice`.  Sequential Python statements become
projection lets threading the state.
-/

/-- Errors the Python runtime can raise while the decoder runs.  The last
constructor, `unknownConstantTag`, is modelled from the spec: it is the error
the specification says unknown constant-pool tags raise; the source never
constructs it (it raises an attribute-access error instead), and it is kept
here only so that statements can compare the two shapes. -/
inductive PyErr where
  | indexError
  | attributeError
  | structError
  | unknownConstantTag (tag : Nat) (offset : Nat)
  deriving DecidableEq

/-- Decoder state: the fields of the `ClassFile` object that the module-level
functions read and mutate (`self.data`, `self.offset`, `self.i_am_code`,
`self.run_code`). -/
structure St where
  data : List Nat
  offset : Nat
  i_am_code : Nat
  run_code : List Nat
  deriving DecidableEq

/-- Python slice `data[start : start + len]` for non-negative indices: it
clamps silently at the end of the buffer and never fails. -/
def pySlice (data : List Nat) (start len : Nat) : List Nat :=
  (data.drop start).take len

/-- Python `int.from_bytes(b, byteorder="big")`; the empty sequence gives 0. -/
def from_bytes_be (b : List Nat) : Nat :=
  b.foldl (fun acc x => acc * 256 + x) 0

/-- `get_u1`: `self.data[self.offset]` raises `IndexError` when the offset is
out of range, otherwise returns the byte and advances the offset by 1. -/
def get_u1 (s : St) : Except PyErr (Nat × St) :=
  if h : s.offset < s.data.length then
    .ok (s.data.get ⟨s.offset, h⟩, { s with offset := s.offset + 1 })
  else
    .error .indexError

/-- `get_u2`: `self.data[self.offset : self.offset + 2]`; the slice clamps
silently, the offset always advances by 2. -/
def get_u2 (s : St) : List Nat × St :=
  (pySlice s.data s.offset 2, { s with offset := s.offset + 2 })

/-- `get_u4`: four-byte slice, offset always advances by 4. -/
def get_u4 (s : St) : List Nat × St :=
  (pySlice s.data s.offset 4, { s with offset := s.offset + 4 })

/-- `get_u8`: eight-byte slice, offset always advances by 8. -/
def get_u8 (s : St) : List Nat × St :=
  (pySlice s.data s.offset 8, { s with offset := s.offset + 8 })

/-- `get_extended(self, length=0)`: the source tests `if not length:`, so a
supplied length of 0 is indistinguishable from no length at all and triggers a
two-byte length-prefix read. -/
def get_extended (s : St) (len : Nat) : List Nat × St :=
  if len = 0 then
    let r := get_u2 s
    let n := from_bytes_be r.1
    (pySlice r.2.data r.2.offset n, { r.2 with offset := r.2.offset + n })
  else
    (pySlice s.data s.offset len, { s with offset := s.offset + len })

/-- One constant-pool entry: the `type` key of the source's per-tag dictionary
becomes the constructor, the remaining keys become the fields, in the order the
source's dictionary literal lists them.  Utf8 values are kept as their raw
bytes (the source decodes them to text; on the byte lists compared here the two
views agree).  Float and Double keep the raw bytes handed to `struct.unpack`. -/
inductive CpEntry where
  | utf8 (value : List Nat)
  | integer (value : Nat)
  | float (raw : List Nat)
  | long (value : Nat)
  | double (raw : List Nat)
  | classRef (name_index : Nat)
  | stringRef (string_index : Nat)
  | fieldRef (class_index : Nat) (name_and_type_index : Nat)
  | methodRef (class_index : Nat) (name_and_type_index : Nat)
  | interfaceMethodRef (class_index : Nat) (name_and_type_index : Nat)
  | nameAndType (name_index : Nat) (descriptor_index : Nat)
  | methodHandle (reference_kind : Nat) (reference_index : Nat)
  | methodType (descriptor_index : Nat)
  | invokeDynamic (bootstrap_method_attr_index : Nat) (name_and_type_index : Nat)
  deriving DecidableEq

/-- UTF-8 bytes of the literal string `Code`. -/
def codeBytes : List Nat := [67, 111, 100, 101]

/-- The value test of the source line `tag == 1 and constant["value"] == "Code"`:
is this entry a Utf8 entry whose text is `Code`? -/
def isCodeVal : CpEntry → Bool
  | .utf8 v => v == codeBytes
  | _ => false

/-- The tags the source's `tag_table` dictionary defines. -/
def recognized (tag : Nat) : Prop :=
  tag ∈ [1, 3, 4, 5, 6, 7, 8, 9, 10, 11, 12, 15, 16, 18]

instance (tag : Nat) : Decidable (recognized tag) := by
  unfold recognized
  infer_instance

/-- The source's `tag_table` dictionary together with the loop statements that
call `.copy()` and evaluate each field lambda: `tag_table.get(tag, None)`
followed by `.copy()` raises `AttributeError` on an unrecognized tag, and
`struct.unpack` raises `struct.error` when not given exactly the byte count
its format requires.  Dictionary lookup on integer keys is equality dispatch,
written here as an if-chain; per-tag field lambdas run in the order the
dictionary literal lists them. -/
def tag_table (tag : Nat) (s : St) : Except PyErr (CpEntry × St) :=
  if tag = 1 then
    let r := get_extended s 0
    .ok (.utf8 r.1, r.2)
  else if tag = 3 then
    let r := get_u4 s
    .ok (.integer (from_bytes_be r.1), r.2)
  else if tag = 4 then
    let r := get_u4 s
    if r.1.length = 4 then .ok (.float r.1, r.2) else .error .structError
  else if tag = 5 then
    let r := get_u8 s
    .ok (.long (from_bytes_be r.1), r.2)
  else if tag = 6 then
    let r := get_u8 s
    if r.1.length = 8 then .ok (.double r.1, r.2) else .error .structError
  else if tag = 7 then
    let r := get_u2 s
    .ok (.classRef (from_bytes_be r.1), r.2)
  else if tag = 8 then
    let r := get_u2 s
    .ok (.stringRef (from_bytes_be r.1), r.2)
  else if tag = 9 then
    let r1 := get_u2 s
    let r2 := get_u2 r1.2
    .ok (.fieldRef (from_bytes_be r1.1) (from_bytes_be r2.1), r2.2)
  else if tag = 10 then
    let r1 := get_u2 s
    let r2 := get_u2 r1.2
    .ok (.methodRef (from_bytes_be r1.1) (from_bytes_be r2.1), r2.2)
  else if tag = 11 then
    let r1 := get_u2 s
    let r2 := get_u2 r1.2
    .ok (.interfaceMethodRef (from_bytes_be r1.1) (from_bytes_be r2.1), r2.2)
  else if tag = 12 then
    let r1 := get_u2 s
    let r2 := get_u2 r1.2
    .ok (.nameAndType (from_bytes_be r1.1) (from_bytes_be r2.1), r2.2)
  else if tag = 15 then
    match get_u1 s with
    | .error e => .error e
    | .ok (k, s1) =>
      let r := get_u2 s1
      .ok (.methodHandle k (from_bytes_be r.1), r.2)
  else if tag = 16 then
    let r := get_u2 s
    .ok (.methodType (from_bytes_be r.1), r.2)
  else if tag = 18 then
    let r1 := get_u2 s
    let r2 := get_u2 r1.2
    .ok (.invokeDynamic (from_bytes_be r1.1) (from_bytes_be r2.1), r2.2)
  else
    .error .attributeError

/-- The loop `for index in range(1, self.pool_count)` of `get_constant_pool`,
with `count` remaining iterations and `index` the current loop value.  The
source line `if tag in [5, 6]: index += 1` is not represented: in Python the
`for` statement rebinds `index` from the range at the top of every iteration,
so that increment affects neither the iteration sequence nor the dictionary
keys that get assigned. -/
def cp_loop (s : St) (count : Nat) (index : Nat) :
    Except PyErr (List (Nat × CpEntry) × St) :=
  match count with
  | 0 => .ok ([], s)
  | k + 1 =>
    match get_u1 s with
    | .error e => .error e
    | .ok (tag, s1) =>
      match tag_table tag s1 with
      | .error e => .error e
      | .ok (c, s2) =>
        let s3 := if tag = 1 ∧ isCodeVal c = true then
            { s2 with i_am_code := index }
          else s2
        match cp_loop s3 k (index + 1) with
        | .error e => .error e
        | .ok (rest, s4) => .ok ((index, c) :: rest, s4)

/-- `get_constant_pool`: the returned mapping is the pair of the bookkeeping
slot `pool[0] = self.pool_count` and the association list of the decoded
entries, keyed by loop index.  `range(1, pool_count)` runs `pool_count - 1`
times (0 times when `pool_count` is 0 or 1). -/
def get_constant_pool (s : St) (pool_count : Nat) :
    Except PyErr ((Nat × List (Nat × CpEntry)) × St) :=
  match cp_loop s (pool_count - 1) 1 with
  | .error e => .error e
  | .ok (entries, s1) => .ok ((pool_count, entries), s1)

/-- One decoded attribute: the keys of the dictionary `get_an_attribute`
builds. -/
structure AttributeInfo where
  name_index : Nat
  length : Nat
  info : List Nat
  deriving DecidableEq

/-- `get_an_attribute`: reads `name_index` (u2), `length` (u4), then the
payload via `get_extended(self, length=attribute["length"])`; if `name_index`
equals `self.i_am_code` the payload is appended to `self.run_code`. -/
def get_an_attribute (s : St) : AttributeInfo × St :=
  let r1 := get_u2 s
  let ni := from_bytes_be r1.1
  let r2 := get_u4 r1.2
  let len := from_bytes_be r2.1
  let r3 := get_extended r2.2 len
  let s4 := if ni = r3.2.i_am_code then
      { r3.2 with run_code := r3.2.run_code ++ r3.1 }
    else r3.2
  ({ name_index := ni, length := len, info := r3.1 }, s4)

/-- `get_attributes`: the Python list `[span, attr1, ..., attrN]` is modelled
as the pair of the running span (the element at position 0, accumulated as
`attributes[0] += 6 + attr["length"]`) and the list of attributes; with a
falsy count the `if count:` guard skips the loop and the list stays `[0]`,
which coincides with the loop running zero times. -/
def get_attributes (s : St) (count : Nat) : (Nat × List AttributeInfo) × St :=
  match count with
  | 0 => ((0, []), s)
  | k + 1 =>
    let r := get_an_attribute s
    let rest := get_attributes r.2 k
    ((6 + r.1.length + rest.1.1, r.1 :: rest.1.2), rest.2)

/-- One entry of a field or method table, the inner dictionary that `get_info`
builds for each `val`.  `access_flags` keeps the raw two-byte slice, exactly
as the source stores the return of `get_u2` without conversion. -/
structure MemberInfo where
  access_flags : List Nat
  name_index : Nat
  descriptor_index : Nat
  attributes_count : Nat
  attributes : Nat × List AttributeInfo
  deriving DecidableEq

/-- The loop of `get_info`, for `count` remaining entries. -/
def get_info_loop (s : St) (count : Nat) : List MemberInfo × St :=
  match count with
  | 0 => ([], s)
  | k + 1 =>
    let rAf := get_u2 s
    let rNi := get_u2 rAf.2
    let rDi := get_u2 rNi.2
    let rAc := get_u2 rDi.2
    let ac := from_bytes_be rAc.1
    let rAt := get_attributes rAc.2 ac
    let m : MemberInfo :=
      { access_flags := rAf.1, name_index := from_bytes_be rNi.1,
        descriptor_index := from_bytes_be rDi.1, attributes_count := ac,
        attributes := rAt.1 }
    let rest := get_info_loop rAt.2 k
    (m :: rest.1, rest.2)

/-- `get_info`: the dictionary `{0: {"values_count": count}, 1: ..., count: ...}`
is modelled as the pair of the count metadata and the entry list. -/
def get_info (s : St) (count : Nat) : (Nat × List MemberInfo) × St :=
  let r := get_info_loop s count
  ((count, r.1), r.2)

/-- The state `ClassFile.__init__` sets up before any read: `self.offset = 0`,
`self.i_am_code = 0`, `self.run_code = bytearray(0x00)` (a zero-length
bytearray, since `0x00` is the integer 0). -/
def initSt (data : List Nat) : St :=
  { data := data, offset := 0, i_am_code := 0, run_code := [] }

/-- The attributes `ClassFile.__init__` assigns.  The `interfaces`, `fields`,
`methods` and `class_attributes` attributes are only assigned when the
corresponding count is truthy, hence `Option` with `none` for an attribute the
object does not have.  `magic`, `access_flags`, `this_class` and `super_class`
keep the raw byte slices, exactly as the source stores them without
conversion. -/
structure ClassFile where
  magic : List Nat
  minor : Nat
  major : Nat
  pool_count : Nat
  cp_begin : Nat
  constant_pool : Nat × List (Nat × CpEntry)
  access_flags : List Nat
  this_class : List Nat
  super_class : List Nat
  interfaces_count : Nat
  interfaces_begin : Nat
  interfaces : Option (Nat × List MemberInfo)
  fields_count : Nat
  fields_begin : Nat
  fields : Option (Nat × List MemberInfo)
  methods_count : Nat
  methods_begin : Nat
  methods : Option (Nat × List MemberInfo)
  class_attributes_count : Nat
  class_attributes : Option (Nat × List AttributeInfo)
  i_am_code : Nat
  run_code : List Nat
  final_offset : Nat
  deriving DecidableEq

/-- `ClassFile.__init__` after the file has been read into `data`: the fixed
decode sequence magic, minor, major, pool_count, constant pool, access flags,
this, super, interfaces, fields, methods, class attributes.  Each `if count:`
guard of the source becomes a test against 0. -/
def ClassFile.decode (data : List Nat) : Except PyErr ClassFile :=
  let s0 := initSt data
  let rMa := get_u4 s0
  let rMi := get_u2 rMa.2
  let rMj := get_u2 rMi.2
  let rPc := get_u2 rMj.2
  let pool_count := from_bytes_be rPc.1
  let cp_begin := rPc.2.offset
  match get_constant_pool rPc.2 pool_count with
  | .error e => .error e
  | .ok (pool, s5) =>
    let rAf := get_u2 s5
    let rTc := get_u2 rAf.2
    let rSc := get_u2 rTc.2
    let rIc := get_u2 rSc.2
    let interfaces_count := from_bytes_be rIc.1
    let interfaces_begin := rIc.2.offset
    let rIf := if interfaces_count = 0 then
        ((none : Option (Nat × List MemberInfo)), rIc.2)
      else
        let t := get_info rIc.2 interfaces_count
        (some t.1, t.2)
    let rFc := get_u2 rIf.2
    let fields_count := from_bytes_be rFc.1
    let fields_begin := rFc.2.offset
    let rFs := if fields_count = 0 then
        ((none : Option (Nat × List MemberInfo)), rFc.2)
      else
        let t := get_info rFc.2 fields_count
        (some t.1, t.2)
    let rMc := get_u2 rFs.2
    let methods_count := from_bytes_be rMc.1
    let methods_begin := rMc.2.offset
    let rMs := if methods_count = 0 then
        ((none : Option (Nat × List MemberInfo)), rMc.2)
      else
        let t := get_info rMc.2 methods_count
        (some t.1, t.2)
    let rCac := get_u2 rMs.2
    let class_attributes_count := from_bytes_be rCac.1
    let rCas := if class_attributes_count = 0 then
        ((none : Option (Nat × List AttributeInfo)), rCac.2)
      else
        let t := get_attributes rCac.2 class_attributes_count
        (some t.1, t.2)
    .ok { magic := rMa.1, minor := from_bytes_be rMi.1, major := from_bytes_be rMj.1,
          pool_count := pool_count, cp_begin := cp_begin, constant_pool := pool,
          access_flags := rAf.1, this_class := rTc.1, super_class := rSc.1,
          interfaces_count := interfaces_count, interfaces_begin := interfaces_begin,
          interfaces := rIf.1,
          fields_count := fields_count, fields_begin := fields_begin, fields := rFs.1,
          methods_count := methods_count, methods_begin := methods_begin,
          methods := rMs.1,
          class_attributes_count := class_attributes_count,
          class_attributes := rCas.1,
          i_am_code := rCas.2.i_am_code, run_code := rCas.2.run_code,
          final_offset := rCas.2.offset }

/-- Extract the successfully decoded value of an `Except` result, if any. -/
def okPart : Except PyErr ClassFile → Option ClassFile
  | .ok cf => some cf
  | .error _ => none

/-- The index of the last entry of the list that is a Utf8 `Code` entry, or
the default when there is none: the value left in a variable that is
overwritten by each `Code` entry in order. -/
def lastCodeIdx (entries : List (Nat × CpEntry)) (dflt : Nat) : Nat :=
  entries.foldl (fun acc p => if isCodeVal p.2 = true then p.1 else acc) dflt

/-- Constant-pool section of a class file whose pool_count is 3 and whose
first entry is the Long 42 (tag 5, eight payload bytes), followed by a tag-7
entry.  Under the two-slot rule the Long occupies indices 1 and 2, so only one
physical entry should be read. -/
def c1poolBytes : List Nat := [5, 0, 0, 0, 0, 0, 0, 0, 42, 7, 0, 9]

/-- A 32-byte class file with an empty constant pool, `interfaces_count = 1`,
the 8 bytes `[0,1, 0,2, 0,3, 0,0]` after the interfaces count, and zero
fields, methods and class attributes. -/
def c2bytes : List Nat :=
  [202, 254, 186, 190, 0, 0, 0, 52, 0, 0, 0, 0, 0, 0, 0, 0,
   0, 1, 0, 1, 0, 2, 0, 3, 0, 0, 0, 0, 0, 0, 0, 0]

/-- An attribute whose declared u4 length is 0: name_index bytes `[0,5]`,
length bytes `[0,0,0,0]`, followed by the bytes `[0,1,171]`. -/
def c4st : St := ⟨[0, 5, 0, 0, 0, 0, 0, 1, 171], 0, 0, []⟩

/-- The minimal class file of spec section 8: pool_count 2, one Utf8 entry
`Code`, zero interfaces and fields, one method carrying one attribute whose
name index 1 is the `Code` index, declared length 3, payload `[1,2,3]`, zero
class attributes. -/
def c7bytes : List Nat :=
  [202, 254, 186, 190, 0, 0, 0, 52, 0, 2,
   1, 0, 4, 67, 111, 100, 101,
   0, 33, 0, 1, 0, 2, 0, 0, 0, 0, 0, 1,
   0, 0, 0, 0, 0, 0, 0, 1,
   0, 1, 0, 0, 0, 3, 1, 2, 3,
   0, 0]

/-- The ClassFile value that decoding the empty byte sequence produces: every
count reads an empty slice and is 0, so none of the optional members is set. -/
def cfEmpty : ClassFile :=
  { magic := [], minor := 0, major := 0, pool_count := 0, cp_begin := 10,
    constant_pool := (0, []), access_flags := [], this_class := [], super_class := [],
    interfaces_count := 0, interfaces_begin := 18, interfaces := none,
    fields_count := 0, fields_begin := 20, fields := none,
    methods_count := 0, methods_begin := 22, methods := none,
    class_attributes_count := 0, class_attributes := none,
    i_am_code := 0, run_code := [], final_offset := 24 }

/-- A state holding one tag-3 (Integer) pool entry. -/
def c10st : St := ⟨[3, 0, 0, 0, 7], 0, 0, []⟩

/-- The entries the pool loop decodes from `c10st`. -/
def c10res : List (Nat × CpEntry) := [(1, .integer 7)]

/-- The state the pool loop leaves after decoding `c10st`. -/
def c10stAfter : St := ⟨[3, 0, 0, 0, 7], 5, 0, []⟩

/-- A state holding one attribute with name_index 0, length 1, payload `[9]`. -/
def c10attrSt : St := ⟨[0, 0, 0, 0, 0, 1, 9], 0, 0, []⟩

/-- Slicing entirely past the end of the buffer gives the empty sequence. -/
theorem pySlice_past_end (l : List Nat) (a n : Nat) (h : l.length ≤ a) :
    pySlice l a n = [] := by
  have hd : l.drop a = [] := List.drop_eq_nil_of_le h
  simp [pySlice, hd]

/-- The slice length is the requested width clamped to the remaining bytes. -/
theorem pySlice_length (l : List Nat) (a n : Nat) :
    (pySlice l a n).length = min n (l.length - a) := by
  simp [pySlice]

/-- `get_extended` never touches the `i_am_code` sentinel. -/
theorem get_extended_i_am_code (s : St) (n : Nat) :
    ((get_extended s n).2).i_am_code = s.i_am_code := by
  unfold get_extended get_u2
  split <;> rfl

/-- `get_extended` never touches the `run_code` accumulator. -/
theorem get_extended_run_code (s : St) (n : Nat) :
    ((get_extended s n).2).run_code = s.run_code := by
  unfold get_extended get_u2
  split <;> rfl

/-- A successful `get_u1` leaves the `i_am_code` sentinel unchanged. -/
theorem get_u1_i_am_code (s : St) (t : Nat) (s1 : St)
    (h : get_u1 s = .ok (t, s1)) : s1.i_am_code = s.i_am_code := by
  unfold get_u1 at h
  split at h
  · simp only [Except.ok.injEq, Prod.mk.injEq] at h
    obtain ⟨h1, h2⟩ := h
    subst h2
    rfl
  · exact Except.noConfusion h

theorem tag_table_unrecognized (tag : Nat) (s : St) (h : ¬ recognized tag) :
    tag_table tag s = .error .attributeError := by
  simp only [recognized, List.mem_cons, List.not_mem_nil, or_false, not_or] at h
  obtain ⟨h1, h3, h4, h5, h6, h7, h8, h9, h10, h11, h12, h15, h16, h18⟩ := h
  simp [tag_table, h1, h3, h4, h5, h6, h7, h8, h9, h10, h11, h12, h15, h16, h18]

theorem tag_table_i_am_code (tag : Nat) (s : St) (c : CpEntry) (s' : St)
    (h : tag_table tag s = .ok (c, s')) : s'.i_am_code = s.i_am_code := by
  by_cases hr : recognized tag
  · simp only [recognized, List.mem_cons, List.not_mem_nil, or_false] at hr
    rcases hr with rfl | rfl | rfl | rfl | rfl | rfl | rfl | rfl | rfl | rfl | rfl | rfl | rfl | rfl <;>
      first
      | (simp [tag_table] at h
         obtain ⟨h1, h2⟩ := h
         subst h2
         exact get_extended_i_am_code s 0)
      | (simp [tag_table, get_u2, get_u4, get_u8] at h
         obtain ⟨h1, h2⟩ := h
         subst h2
         rfl)
      | (simp [tag_table] at h
         split at h
         · simp only [Except.ok.injEq, Prod.mk.injEq] at h
           obtain ⟨h1, h2⟩ := h
           subst h2
           simp [get_u4, get_u8]
         · exact Except.noConfusion h)
      | (simp [tag_table] at h
         cases hu : get_u1 s with
         | error e =>
           rw [hu] at h
           exact Except.noConfusion h
         | ok p =>
           obtain ⟨k, s1⟩ := p
           rw [hu] at h
           simp at h
           obtain ⟨h1, h2⟩ := h
           subst h2
           simp [get_u2]
           exact get_u1_i_am_code s k s1 hu)
  · rw [tag_table_unrecognized tag s hr] at h
    exact Except.noConfusion h

theorem tag_table_code_val (tag : Nat) (s : St) (c : CpEntry) (s' : St)
    (h : tag_table tag s = .ok (c, s')) (hc : isCodeVal c = true) : tag = 1 := by
  by_cases hr : recognized tag
  · simp only [recognized, List.mem_cons, List.not_mem_nil, or_false] at hr
    rcases hr with rfl | rfl | rfl | rfl | rfl | rfl | rfl | rfl | rfl | rfl | rfl | rfl | rfl | rfl <;>
      first
      | rfl
      | (simp [tag_table] at h
         obtain ⟨h1, h2⟩ := h
         subst h1
         simp [isCodeVal] at hc)
      | (simp [tag_table] at h
         split at h
         · simp only [Except.ok.injEq, Prod.mk.injEq] at h
           obtain ⟨h1, h2⟩ := h
           subst h1
           simp [isCodeVal] at hc
         · exact Except.noConfusion h)
      | (simp [tag_table] at h
         cases hu : get_u1 s with
         | error e =>
           rw [hu] at h
           exact Except.noConfusion h
         | ok p =>
           obtain ⟨k, s1⟩ := p
           rw [hu] at h
           simp at h
           obtain ⟨h1, h2⟩ := h
           subst h1
           simp [isCodeVal] at hc)
  · rw [tag_table_unrecognized tag s hr] at h
    exact Except.noConfusion h

/-- C1: on a pool with `pool_count = 3` whose first entry is a Long, the
decoder assigns the very next decoded entry to index 2 (reading that entry's
bytes), instead of leaving index 2 absent: the `index += 1` skip in the source
is a no-op because the `for` statement rebinds the loop variable, and the
decoder always performs `pool_count - 1` physical entry reads. -/
theorem thm_c1_wide_constant_skip_noop :
    get_constant_pool ⟨c1poolBytes, 0, 0, []⟩ 3 =
      .ok ((3, [(1, .long 42), (2, .classRef 9)]), ⟨c1poolBytes, 12, 0, []⟩) := rfl

/-- C2: with `interfaces_count = 1` the assembler hands the interfaces section
to `get_info`, the member-table decoder, which consumes 8 bytes (access flags,
name index, descriptor index, attribute count) for the single interface rather
than one 2-byte index: `fields_count` is read at offset 26, which is 8 bytes
after `interfaces_begin = 18`, not 2 (`fields_begin` is 2 past the
`fields_count` read position). -/
theorem thm_c2_interfaces_member_decoded :
    (okPart (ClassFile.decode c2bytes)).map
        (fun cf => (cf.interfaces_begin, cf.fields_begin, cf.interfaces)) =
      some (18, 28,
        some (1, [{ access_flags := [0, 1], name_index := 2, descriptor_index := 3,
                    attributes_count := 0, attributes := (0, []) }])) := rfl

/-- C3 counterexample: on an empty buffer `get_u2` does not fail at all: it
returns the empty byte sequence (which `int.from_bytes` would silently turn
into 0) and still advances the offset to 2; so it is not the case that every
read primitive fails with an end-of-input error on a truncated buffer. -/
theorem cx_c3_silent_short_read :
    (get_u2 ⟨[], 0, 0, []⟩).1 = [] ∧
      (get_u2 ⟨[], 0, 0, []⟩).1.length ≠ 2 ∧
      (get_u2 ⟨[], 0, 0, []⟩).2.offset = 2 := by
  exact ⟨rfl, by decide, rfl⟩

/-- C3 as amended: only `get_u1` fails on a truncated buffer, and with a bare
index error; `get_u2`, `get_u4`, `get_u8` and `get_extended` silently return a
short (here empty) byte sequence while still advancing the offset by the full
requested width. -/
theorem thm_c3_truncation_behavior (s : St) (n : Nat) (h : s.data.length ≤ s.offset) :
    get_u1 s = .error .indexError ∧
      (get_u2 s).1 = [] ∧ (get_u2 s).2.offset = s.offset + 2 ∧
      (get_u4 s).1 = [] ∧ (get_u4 s).2.offset = s.offset + 4 ∧
      (get_u8 s).1 = [] ∧ (get_u8 s).2.offset = s.offset + 8 ∧
      (get_extended s (n + 1)).1 = [] ∧
      (get_extended s (n + 1)).2.offset = s.offset + (n + 1) := by
  refine ⟨?_, ?_, rfl, ?_, rfl, ?_, rfl, ?_, ?_⟩
  · unfold get_u1
    rw [dif_neg (Nat.not_lt.mpr h)]
  · simp [get_u2, pySlice_past_end _ _ _ h]
  · simp [get_u4, pySlice_past_end _ _ _ h]
  · simp [get_u8, pySlice_past_end _ _ _ h]
  · simp [get_extended, pySlice_past_end _ _ _ h]
  · simp [get_extended]

/-- Witness for the amended C3 at the concrete fully-consumed state with empty
data and offset 5. -/
theorem wit_c3_truncation_behavior :
    get_u1 ⟨[], 5, 0, []⟩ = .error .indexError ∧
      (get_u2 ⟨[], 5, 0, []⟩).1 = [] ∧ (get_u2 ⟨[], 5, 0, []⟩).2.offset = 5 + 2 ∧
      (get_u4 ⟨[], 5, 0, []⟩).1 = [] ∧ (get_u4 ⟨[], 5, 0, []⟩).2.offset = 5 + 4 ∧
      (get_u8 ⟨[], 5, 0, []⟩).1 = [] ∧ (get_u8 ⟨[], 5, 0, []⟩).2.offset = 5 + 8 ∧
      (get_extended ⟨[], 5, 0, []⟩ (2 + 1)).1 = [] ∧
      (get_extended ⟨[], 5, 0, []⟩ (2 + 1)).2.offset = 5 + (2 + 1) :=
  thm_c3_truncation_behavior ⟨[], 5, 0, []⟩ 2 (by decide)

/-- C4: for a declared length of 0, `get_extended` takes its `if not length:`
branch, reads the following two bytes `[0,1]` as a fresh length prefix and
then one more payload byte, so the attribute's raw info is `[171]` (length 1,
not the declared 0) and the cursor lands at offset 9 = 6 + 2 + 1 instead of
offset 6. -/
theorem thm_c4_zero_length_attribute :
    get_an_attribute c4st =
        ({ name_index := 5, length := 0, info := [171] },
          ⟨[0, 5, 0, 0, 0, 0, 0, 1, 171], 9, 0, []⟩) ∧
      ((get_an_attribute c4st).1).info.length = 1 ∧
      (get_an_attribute c4st).2.offset = 9 := by
  exact ⟨rfl, rfl, rfl⟩

/-- C5 counterexample: a pool whose single entry has the undefined tag byte 2
(read at offset 0) makes the decode fail with the attribute-access error of
`tag_table.get(tag, None).copy()`, which is a bare payload-free error, not the
`UnknownConstantTag` value carrying the tag 2 and the offset 0 that the claim
describes. -/
theorem cx_c5_unknown_tag_error_shape :
    get_constant_pool ⟨[2], 0, 0, []⟩ 2 = .error .attributeError ∧
      PyErr.attributeError ≠ PyErr.unknownConstantTag 2 0 := by
  exact ⟨rfl, by decide⟩

/-- C5 as amended: any unrecognized tag byte aborts the pool decode, but with
the payload-free attribute-access error raised by calling `.copy()` on the
`None` that the dictionary lookup returns; neither the tag nor the offset is
carried. -/
theorem thm_c5_unknown_tag_attribute_error (s s1 : St) (k index tag : Nat)
    (hu : get_u1 s = .ok (tag, s1)) (h : ¬ recognized tag) :
    cp_loop s (k + 1) index = .error .attributeError := by
  have ht : tag_table tag s1 = .error .attributeError := tag_table_unrecognized tag s1 h
  simp [cp_loop, hu, ht]

/-- Witness for the amended C5 at the concrete one-byte pool `[2]`. -/
theorem wit_c5_unknown_tag :
    cp_loop ⟨[2], 0, 0, []⟩ 1 1 = .error .attributeError :=
  thm_c5_unknown_tag_attribute_error ⟨[2], 0, 0, []⟩ ⟨[2], 1, 0, []⟩ 0 1 2
    (by rfl) (by decide)

/-- C6 counterexample: reading a u2 from an empty buffer leaves the cursor at
offset 2 while the buffer length is 0, so the invariant
`offset <= len(buffer)` does not survive the read, and the read did not fail. -/
theorem cx_c6_offset_past_end :
    (get_u2 ⟨[], 0, 0, []⟩).2.offset = 2 ∧
      ¬ (get_u2 ⟨[], 0, 0, []⟩).2.offset ≤ ((get_u2 ⟨[], 0, 0, []⟩).2).data.length := by
  exact ⟨rfl, by decide⟩

/-- C6 as amended: every multi-byte read advances the offset by the full
requested width whether or not that many bytes remain (so the offset can pass
the end of the buffer), the bytes actually returned are the width clamped to
what remains, and only `get_u1` guards the bound, by failing exactly when the
offset is at or past the end. -/
theorem thm_c6_offset_advance (s : St) :
    (get_u2 s).2.offset = s.offset + 2 ∧
      (get_u2 s).1.length = min 2 (s.data.length - s.offset) ∧
      (get_u4 s).2.offset = s.offset + 4 ∧
      (get_u4 s).1.length = min 4 (s.data.length - s.offset) ∧
      (get_u8 s).2.offset = s.offset + 8 ∧
      (get_u8 s).1.length = min 8 (s.data.length - s.offset) ∧
      (get_u1 s = .error .indexError ↔ s.data.length ≤ s.offset) := by
  refine ⟨rfl, ?_, rfl, ?_, rfl, ?_, ?_⟩
  · simp [get_u2, pySlice]
  · simp [get_u4, pySlice]
  · simp [get_u8, pySlice]
  · unfold get_u1
    constructor
    · intro hE
      by_contra hlt
      rw [dif_pos (Nat.lt_of_not_le hlt)] at hE
      exact Except.noConfusion hE
    · intro hle
      rw [dif_neg (Nat.not_lt.mpr hle)]

/-- C7: decoding the minimal class file succeeds; the single method's
attribute list holds exactly one attribute with declared length 3 and raw info
`[1,2,3]` (alongside the span slot 9 = 6 + 3), and the code accumulator
`run_code` holds exactly the bytes `[1,2,3]`. -/
theorem thm_c7_minimal_code_attribute_scenario :
    (okPart (ClassFile.decode c7bytes)).map (fun cf => (cf.methods, cf.run_code)) =
      some (some (1, [{ access_flags := [0, 0], name_index := 0,
                        descriptor_index := 0, attributes_count := 1,
                        attributes := (9, [{ name_index := 1, length := 3,
                                             info := [1, 2, 3] }]) }]),
            [1, 2, 3]) := rfl

/-- C8: the value retained at position 0 of every decoded attribute list is
the sum over the returned attributes of 6 plus the declared length, and it is
0 for a zero-attribute list. -/
theorem thm_c8_attribute_span_sum (s : St) (count : Nat) :
    ((get_attributes s count).1).1 =
        (((get_attributes s count).1).2.map (fun a => 6 + a.length)).sum ∧
      ((get_attributes s 0).1).1 = 0 := by
  refine ⟨?_, rfl⟩
  induction count generalizing s with
  | zero => simp [get_attributes]
  | succ k ih => simp [get_attributes, ih]

/-- C9: whenever a decode succeeds, a zero interfaces, fields, methods or
class-attributes count leaves the corresponding ClassFile member absent
(`none`), never an empty table. -/
theorem thm_c9_zero_counts_fields_absent (data : List Nat) (cf : ClassFile)
    (h : ClassFile.decode data = .ok cf) :
    (cf.interfaces_count = 0 → cf.interfaces = none) ∧
      (cf.fields_count = 0 → cf.fields = none) ∧
      (cf.methods_count = 0 → cf.methods = none) ∧
      (cf.class_attributes_count = 0 → cf.class_attributes = none) := by
  unfold ClassFile.decode initSt at h
  simp only [] at h
  split at h
  · exact Except.noConfusion h
  · injection h with h
    subst h
    refine ⟨fun h0 => ?_, fun h0 => ?_, fun h0 => ?_, fun h0 => ?_⟩ <;> simp_all

/-- Witness for C9 at the empty input, whose four counts are all 0 and whose
decode succeeds with no optional member set. -/
theorem wit_c9_zero_counts :
    cfEmpty.interfaces = none ∧ cfEmpty.fields = none ∧ cfEmpty.methods = none ∧
      cfEmpty.class_attributes = none := by
  have h := thm_c9_zero_counts_fields_absent [] cfEmpty (by rfl)
  exact ⟨h.1 rfl, h.2.1 rfl, h.2.2.1 rfl, h.2.2.2 rfl⟩

/-- C10: the `Code` sentinel starts at 0; across the pool loop it ends up
holding the index of the last Utf8 `Code` entry decoded (each such entry
overwrites it), or its starting value when no such entry exists; and an
attribute whose name_index bytes decode to 0 while the sentinel is 0 gets its
raw info appended to the `run_code` accumulator. -/
theorem thm_c10_code_sentinel :
    (∀ data, (initSt data).i_am_code = 0) ∧
      (∀ count index s entries s',
        cp_loop s count index = .ok (entries, s') →
          s'.i_am_code = lastCodeIdx entries s.i_am_code) ∧
      (∀ s : St, s.i_am_code = 0 → from_bytes_be (pySlice s.data s.offset 2) = 0 →
        (get_an_attribute s).2.run_code =
          s.run_code ++ ((get_an_attribute s).1).info) := by
  refine ⟨fun data => rfl, ?_, ?_⟩
  · intro count
    induction count with
    | zero =>
      intro index s entries s' h
      simp only [cp_loop, Except.ok.injEq, Prod.mk.injEq] at h
      obtain ⟨h1, h2⟩ := h
      subst h1
      subst h2
      rfl
    | succ k ih =>
      intro index s entries s' h
      simp only [cp_loop] at h
      split at h
      · exact Except.noConfusion h
      · rename_i tag s1 hu
        split at h
        · exact Except.noConfusion h
        · rename_i c s2 ht
          split at h
          · exact Except.noConfusion h
          · rename_i rest s4 hrec
            simp only [Except.ok.injEq, Prod.mk.injEq] at h
            obtain ⟨h1, h2⟩ := h
            subst h1
            subst h2
            have hstep : lastCodeIdx ((index, c) :: rest) s.i_am_code =
                lastCodeIdx rest (if isCodeVal c = true then index else s.i_am_code) := rfl
            rw [hstep]
            by_cases hcv : isCodeVal c = true
            · rw [if_pos hcv]
              have ht1 : tag = 1 := tag_table_code_val tag s1 c s2 ht hcv
              rw [if_pos ⟨ht1, hcv⟩] at hrec
              have hr := ih (index + 1) { s2 with i_am_code := index } rest s4 hrec
              simpa using hr
            · rw [if_neg hcv]
              rw [if_neg (fun hh => hcv hh.2)] at hrec
              have hr := ih (index + 1) s2 rest s4 hrec
              rw [hr, tag_table_i_am_code tag s1 c s2 ht, get_u1_i_am_code s tag s1 hu]
  · intro s h0 hni
    simp only [get_an_attribute, get_u2, get_u4]
    rw [get_extended_i_am_code]
    simp [hni, h0, get_extended_run_code]

/-- Witness for C10: the initial sentinel of a concrete state is 0, a
one-entry pool without a `Code` entry leaves the sentinel at its default, and
a concrete attribute with name_index 0 lands in the accumulator. -/
theorem wit_c10_code_sentinel :
    (initSt [202]).i_am_code = 0 ∧
      c10stAfter.i_am_code = lastCodeIdx c10res c10st.i_am_code ∧
      (get_an_attribute c10attrSt).2.run_code =
        c10attrSt.run_code ++ ((get_an_attribute c10attrSt).1).info := by
  refine ⟨thm_c10_code_sentinel.1 [202], ?_, ?_⟩
  · exact thm_c10_code_sentinel.2.1 1 1 c10st c10res c10stAfter (by rfl)
  · exact thm_c10_code_sentinel.2.2 c10attrSt (by rfl) (by rfl)
